import Mathlib

/-!
# Verification of the glimpse photo-culling core

Shallow embedding, in Lean 4, of the parts of the `glimpse` repository
(`src-tauri/src/image_processor.rs`, `database.rs`, `commands.rs`) that the
frozen claims are about:

* the folder scanner (`scan_folder`, extension filtering, sorting),
* the thumbnail / preview generators and their effect on the output file,
* the parallel thumbnail scheduler (per-file results and progress stream),
* the SQLite-backed session / label store (upsert semantics over lists of
  rows, mirroring the SQL statements executed by `database.rs`),
* the `export_adopted` command.

Filesystem and clock effects are made explicit: every point where the Rust
code queries the filesystem (metadata reads, existence checks, copy results,
decode/encode outcomes) becomes a parameter of the Lean function, and
`Utc::now()` becomes an explicit `now : String` argument.  Machine-level
details (SHA-256 for session-id derivation) are implemented directly over
`Nat` with explicit reduction modulo `2 ^ 32`.
-/

namespace Glimpse

/-! ## Rust `Path` helpers

`Path::extension` returns the portion of the file name after the final `.`,
or `None` when there is no dot, or when the only dot is the leading one
(hidden files such as `.gitignore`).  `Path::file_stem` is the complementary
portion before the final dot.  We model both on the file-name string.
-/

/-- The portion of `name` after the final dot, following Rust
`Path::extension`: `none` when there is no dot or the name is a leading-dot
hidden file with no further dot. -/
def rustExtension (name : String) : Option String :=
  let rev := name.data.reverse
  let extRev := rev.takeWhile (fun c => c ≠ '.')
  match rev.dropWhile (fun c => c ≠ '.') with
  | [] => none
  | _ :: stemRev => if stemRev.isEmpty then none else some (String.mk extRev.reverse)

/-- The portion of `name` before the final dot, following Rust
`Path::file_stem`: the whole name when there is no dot (or only the leading
dot of a hidden file), `none` for the empty name. -/
def rustFileStem (name : String) : Option String :=
  if name.data.isEmpty then none
  else
    let rev := name.data.reverse
    match rev.dropWhile (fun c => c ≠ '.') with
    | [] => some name
    | _ :: stemRev =>
      if stemRev.isEmpty then some name else some (String.mk stemRev.reverse)

/-- `normalize_path` from `image_processor.rs`: replace every backslash by a
forward slash. -/
def normalize_path (path : String) : String :=
  String.mk (path.data.map (fun c => if c = '\\' then '/' else c))

/-- Rust `str::to_lowercase`, restricted to the ASCII range relevant to
file extensions (character-wise lowercase mapping). -/
def rustToLowercase (s : String) : String :=
  String.mk (s.data.map Char.toLower)

/-- Rust's `str::cmp` is byte-wise lexicographic comparison, which agrees
with code-point-wise lexicographic comparison of the character lists. -/
def rustStrLe (a b : String) : Bool :=
  decide (a.data < b.data) || decide (a.data = b.data)

/-- Insert into a `le`-sorted list before the first element not `le`-below
the inserted one (the stable insertion position). -/
def insertSorted (le : α → α → Bool) (x : α) : List α → List α
  | [] => [x]
  | b :: l => if le x b then x :: b :: l else b :: insertSorted le x l

/-- Stable insertion sort.  Rust's `slice::sort_by` is a stable sort, and
for a total preorder every stable sort produces the same output, so this
models `images.sort_by(...)` exactly. -/
def sortBy (le : α → α → Bool) : List α → List α
  | [] => []
  | x :: l => insertSorted le x (sortBy le l)

theorem mem_insertSorted (le : α → α → Bool) (x a : α) (l : List α) :
    a ∈ insertSorted le x l ↔ a = x ∨ a ∈ l := by
  induction l with
  | nil => simp [insertSorted]
  | cons b t ih =>
    by_cases h : le x b = true
    · simp [insertSorted, h]
    · simp only [insertSorted, if_neg h, List.mem_cons, ih]
      tauto

theorem mem_sortBy (le : α → α → Bool) (a : α) (l : List α) :
    a ∈ sortBy le l ↔ a ∈ l := by
  induction l with
  | nil => simp [sortBy]
  | cons b t ih => simp [sortBy, mem_insertSorted, ih]

/-! ## Extension tables (`image_processor.rs` lines 163-182) -/

/-- `RAW_EXTENSIONS` from `image_processor.rs`: the exact list of accepted
RAW extensions, each in all-lowercase and all-uppercase form. -/
def RAW_EXTENSIONS : List String :=
  ["nef", "NEF", "arw", "ARW", "cr2", "CR2", "cr3", "CR3", "raf", "RAF",
   "orf", "ORF", "rw2", "RW2", "pef", "PEF", "dng", "DNG", "srw", "SRW"]

/-- `IMAGE_EXTENSIONS` from `image_processor.rs`. -/
def IMAGE_EXTENSIONS : List String :=
  ["jpg", "JPG", "jpeg", "JPEG", "png", "PNG"]

/-- `is_raw_extension` from `image_processor.rs`. -/
def is_raw_extension (ext : String) : Bool :=
  RAW_EXTENSIONS.contains ext

/-! ## Scanner (`scan_folder`, `image_processor.rs` lines 184-224)

A directory entry is modelled by its file name, its `is_file` answer and the
outcome of `entry.metadata()`.  The formatted modification time
(`chrono` formatting of `metadata.modified()`) is abstracted to the already
formatted string when the underlying call succeeds; `metadata.len()` is the
byte size. -/

/-- Result of a successful `entry.metadata()` call: the formatted
modification time when `metadata.modified()` succeeds, and the byte size. -/
structure MetaData where
  modified : Option String
  size : Nat
deriving DecidableEq, Repr, Inhabited

/-- One directory entry as `scan_folder` observes it. -/
structure EntryModel where
  name : String
  is_file : Bool
  metadata : Except String MetaData
deriving Repr

/-- `ImageInfo` from `image_processor.rs`. -/
structure ImageInfo where
  filename : String
  path : String
  size : Nat
  modified_at : String
deriving DecidableEq, Repr

/-- The extension string `scan_folder` computes:
`path.extension().and_then(|e| e.to_str()).unwrap_or("")`. -/
def entryExt (e : EntryModel) : String :=
  (rustExtension e.name).getD ""

/-- The filter `scan_folder` applies: regular file whose extension is in one
of the two extension tables (exact string match against the listed
variants). -/
def keepEntry (e : EntryModel) : Bool :=
  e.is_file && (RAW_EXTENSIONS.contains (entryExt e) || IMAGE_EXTENSIONS.contains (entryExt e))

/-- The metadata of an entry, defaulting when the read failed (only used
under the hypothesis that the read succeeded). -/
def metaOf (e : EntryModel) : MetaData :=
  match e.metadata with
  | .ok m => m
  | .error _ => default

/-- The `ImageInfo` row `scan_folder` pushes for a kept entry: the file
name, the normalized joined path, the byte size, and the formatted
modification time with `"-"` as fallback when `metadata.modified()` is
unavailable. -/
def mkImageInfo (folder : String) (e : EntryModel) : ImageInfo :=
  { filename := e.name
    path := normalize_path (folder ++ "/" ++ e.name)
    size := (metaOf e).size
    modified_at := ((metaOf e).modified).getD "-" }

/-- The body of the `for entry in read_dir(...)` loop of `scan_folder`:
skip non-files and unknown extensions, read metadata (propagating a failure
as the whole scan's failure, as the `?` operator does), push the row. -/
def scanEntries (folder : String) : List EntryModel → Except String (List ImageInfo)
  | [] => .ok []
  | e :: rest =>
    if keepEntry e then
      match e.metadata with
      | .error msg => .error msg
      | .ok _ =>
        match scanEntries folder rest with
        | .error msg => .error msg
        | .ok tail => .ok (mkImageInfo folder e :: tail)
    else scanEntries folder rest

/-- `scan_folder` from `image_processor.rs`: collect the kept rows, then
`images.sort_by(|a, b| a.filename.cmp(&b.filename))` (a stable ascending
sort by file name). -/
def scan_folder (folder : String) (entries : List EntryModel) : Except String (List ImageInfo) :=
  match scanEntries folder entries with
  | .error msg => .error msg
  | .ok images => .ok (sortBy (fun a b => rustStrLe a.filename b.filename) images)

example : rustExtension "x.Jpg" = some "Jpg" := by decide
example : rustExtension ".gitignore" = none := by decide
example : rustExtension "a.tar.gz" = some "gz" := by decide
example : rustFileStem "a.tar.gz" = some "a.tar" := by decide
example : rustFileStem "photo.nef" = some "photo" := by decide

/-! ## SHA-256 and session-id derivation

`Database::generate_session_id` (and its duplicate in `image_processor.rs`)
hashes the UTF-8 bytes of the folder path with SHA-256 and hex-encodes the
first 16 bytes.  SHA-256 is implemented here over `Nat` with explicit
reduction modulo `2 ^ 32` (verified below against the standard test
vectors). -/

/-- Reduce modulo the 32-bit word size. -/
def w32 (n : Nat) : Nat := n % 4294967296

/-- 32-bit right rotation. -/
def rotr (n x : Nat) : Nat := w32 ((x >>> n) ||| (x <<< (32 - n)))

/-- The 64 SHA-256 round constants (decimal). -/
def sha256k : List Nat :=
  [1116352408, 1899447441, 3049323471, 3921009573, 961987163,
   1508970993, 2453635748, 2870763221, 3624381080, 310598401,
   607225278, 1426881987, 1925078388, 2162078206, 2614888103,
   3248222580, 3835390401, 4022224774, 264347078, 604807628,
   770255983, 1249150122, 1555081692, 1996064986, 2554220882,
   2821834349, 2952996808, 3210313671, 3336571891, 3584528711,
   113926993, 338241895, 666307205, 773529912, 1294757372,
   1396182291, 1695183700, 1986661051, 2177026350, 2456956037,
   2730485921, 2820302411, 3259730800, 3345764771, 3516065817,
   3600352804, 4094571909, 275423344, 430227734, 506948616,
   659060556, 883997877, 958139571, 1322822218, 1537002063,
   1747873779, 1955562222, 2024104815, 2227730452, 2361852424,
   2428436474, 2756734187, 3204031479, 3329325298]

/-- The SHA-256 initial hash state (decimal). -/
def sha256init : List Nat :=
  [1779033703, 3144134277, 1013904242, 2773480762,
   1359893119, 2600822924, 528734635, 1541459225]

/-- SHA-256 message padding: a `128` byte, zeros, then the 64-bit
big-endian bit length. -/
def sha256pad (msg : List Nat) : List Nat :=
  let bitLen := msg.length * 8
  let padZeros := (119 - msg.length % 64) % 64
  msg ++ [128] ++ List.replicate padZeros 0 ++
    (List.range 8).map (fun i => (bitLen >>> ((7 - i) * 8)) % 256)

/-- Group bytes into big-endian 32-bit words. -/
def bytesToWords : List Nat → List Nat
  | b0 :: b1 :: b2 :: b3 :: rest =>
    (b0 * 16777216 + b1 * 65536 + b2 * 256 + b3) :: bytesToWords rest
  | _ => []

/-- One step of the SHA-256 message-schedule extension. -/
def scheduleStep (ws : List Nat) : List Nat :=
  let i := ws.length
  let g := fun (j : Nat) => ws.getD (i - j) 0
  let s0 := w32 ((rotr 7 (g 15)).xor ((rotr 18 (g 15)).xor ((g 15) >>> 3)))
  let s1 := w32 ((rotr 17 (g 2)).xor ((rotr 19 (g 2)).xor ((g 2) >>> 10)))
  ws ++ [w32 (g 16 + s0 + g 7 + s1)]

/-- Extend 16 schedule words to 64. -/
def schedule (ws : List Nat) : List Nat :=
  (List.range 48).foldl (fun acc _ => scheduleStep acc) ws

/-- One SHA-256 compression round on the 8-word working state. -/
def compressStep (st : List Nat) (kw : Nat × Nat) : List Nat :=
  match st with
  | [a, b, c, d, e, f, g, h] =>
    let S1 := w32 ((rotr 6 e).xor ((rotr 11 e).xor (rotr 25 e)))
    let ch := w32 ((e.land f).xor ((e.xor 4294967295).land g))
    let temp1 := w32 (h + S1 + ch + kw.2 + kw.1)
    let S0 := w32 ((rotr 2 a).xor ((rotr 13 a).xor (rotr 22 a)))
    let maj := w32 ((a.land b).xor ((a.land c).xor (b.land c)))
    let temp2 := w32 (S0 + maj)
    [w32 (temp1 + temp2), a, b, c, w32 (d + temp1), e, f, g]
  | other => other

/-- Compress one 64-byte chunk into the hash state. -/
def compressChunk (h : List Nat) (chunk : List Nat) : List Nat :=
  let ws := schedule (bytesToWords chunk)
  let st := (ws.zip sha256k).foldl compressStep h
  (h.zip st).map (fun p => w32 (p.1 + p.2))

/-- Split into 64-byte chunks (fuel-based structural recursion). -/
def chunksGo : Nat → List Nat → List (List Nat)
  | 0, _ => []
  | _, [] => []
  | fuel + 1, l => l.take 64 :: chunksGo fuel (l.drop 64)

/-- Split a byte list into 64-byte chunks. -/
def chunks64 (l : List Nat) : List (List Nat) := chunksGo l.length l

/-- SHA-256 digest (32 bytes) of a byte list. -/
def sha256bytes (msg : List Nat) : List Nat :=
  let hs := (chunks64 (sha256pad msg)).foldl compressChunk sha256init
  hs.flatMap (fun w => [(w >>> 24) % 256, (w >>> 16) % 256, (w >>> 8) % 256, w % 256])

/-- Lowercase hex digit. -/
def hexDigit (n : Nat) : Char :=
  "0123456789abcdef".data.getD n 'x'

/-- Two-digit lowercase hex encoding of a byte. -/
def hexByte (b : Nat) : String := String.mk [hexDigit (b / 16), hexDigit (b % 16)]

/-- `hex::encode` of a byte list. -/
def hexOfBytes (bs : List Nat) : String := String.join (bs.map hexByte)

/-- UTF-8 encoding of one character (`str::as_bytes`). -/
def utf8Bytes (c : Char) : List Nat :=
  let n := c.toNat
  if n < 128 then [n]
  else if n < 2048 then [192 + n / 64, 128 + n % 64]
  else if n < 65536 then [224 + n / 4096, 128 + (n / 64) % 64, 128 + n % 64]
  else [240 + n / 262144, 128 + (n / 4096) % 64, 128 + (n / 64) % 64, 128 + n % 64]

/-- The UTF-8 bytes of a string. -/
def strBytes (s : String) : List Nat := s.data.flatMap utf8Bytes

/-- `Database::generate_session_id` from `database.rs`: SHA-256 of the
folder path's bytes, first 16 bytes hex-encoded. -/
def generate_session_id (folder_path : String) : String :=
  hexOfBytes ((sha256bytes (strBytes folder_path)).take 16)

example :
    hexOfBytes (sha256bytes (strBytes "abc")) =
      "ba7816bf8f01cfea414140de5dae2223b00361a396177a9cb410ff61f20015ad" := by decide

example :
    hexOfBytes (sha256bytes []) =
      "e3b0c44298fc1c149afbf4c8996fb92427ae41e4649b934ca495991b7852b855" := by decide

/-! ## Session store (`database.rs`)

The `sessions` table is modelled as a list of rows; `id` is its primary
key, so a well-formed table has at most one row per id.  The SQL statement
in `get_or_create_session` is
`INSERT ... ON CONFLICT(id) DO UPDATE SET last_opened = ?3, total_files = ?4`:
on conflict only `last_opened` and `total_files` change. -/

/-- `Session` from `database.rs`. -/
structure Session where
  id : String
  folder_path : String
  last_opened : Option String
  last_selected_index : Int
  total_files : Int
  created_at : String
deriving DecidableEq, Repr

/-- The row predicate `id = ?1`. -/
def sessionIdP (sid : String) (s : Session) : Bool := s.id == sid

/-- The `ON CONFLICT(id) DO UPDATE SET last_opened = ?3, total_files = ?4`
update applied to a conflicting row. -/
def sessionUpd (now : String) (total_files : Int) (s : Session) : Session :=
  { s with last_opened := some now, total_files := total_files }

/-- The freshly inserted row: the INSERT supplies id, folder_path,
last_opened, total_files and created_at; `last_selected_index` takes its SQL
default 0. -/
def sessionNew (sid folder_path now : String) (total_files : Int) : Session :=
  { id := sid, folder_path := folder_path, last_opened := some now,
    last_selected_index := 0, total_files := total_files, created_at := now }

/-- The effect of the upsert statement of `get_or_create_session` on the
`sessions` table. -/
def sessionsUpsert (t : List Session) (sid folder_path now : String) (total_files : Int) :
    List Session :=
  if t.any (sessionIdP sid) then
    t.map (fun s => if sessionIdP sid s then sessionUpd now total_files s else s)
  else
    t ++ [sessionNew sid folder_path now total_files]

/-- `Database::get_or_create_session` from `database.rs`: derive the id,
run the upsert, then `SELECT ... WHERE id = ?1` (`query_row` errors when no
row comes back). -/
def get_or_create_session (t : List Session) (folder_path : String) (total_files : Int)
    (now : String) : List Session × Except String Session :=
  let session_id := generate_session_id folder_path
  let t2 := sessionsUpsert t session_id folder_path now total_files
  (t2, match t2.find? (sessionIdP session_id) with
       | some s => .ok s
       | none => .error "QueryReturnedNoRows")

/-! ## Label store (`database.rs`)

The `labels` table has composite primary key `(session_id, filename)` and a
nullable `label` column.  `set_label` executes
`INSERT ... ON CONFLICT(session_id, filename) DO UPDATE SET label = ?3,
updated_at = ?4` — with `label = NULL` this stores a row whose label column
is NULL; no statement deletes rows. -/

/-- `Label` from `database.rs`. -/
structure Label where
  session_id : String
  filename : String
  label : Option String
  updated_at : String
deriving DecidableEq, Repr

/-- The composite-key predicate `session_id = ?1 AND filename = ?2`. -/
def labelKeyP (sid fn : String) (r : Label) : Bool :=
  r.session_id == sid && r.filename == fn

/-- `Database::set_label` from `database.rs`: upsert of the `(session_id,
filename)` row, setting `label` (possibly NULL, i.e. `none`) and
`updated_at`. -/
def set_label (t : List Label) (sid fn : String) (lbl : Option String) (now : String) :
    List Label :=
  if t.any (labelKeyP sid fn) then
    t.map (fun r => if labelKeyP sid fn r then { r with label := lbl, updated_at := now } else r)
  else
    t ++ [{ session_id := sid, filename := fn, label := lbl, updated_at := now }]

/-- The `SELECT label ... query_row` step of `Database::get_label`:
`QueryReturnedNoRows` when the key is absent, otherwise the row's nullable
label column. -/
def get_label_query (t : List Label) (sid fn : String) : Except String (Option String) :=
  match t.find? (labelKeyP sid fn) with
  | some r => .ok r.label
  | none => .error "QueryReturnedNoRows"

/-- `Database::get_label` from `database.rs`: run the query and map the
`QueryReturnedNoRows` error to `Ok(None)`. -/
def get_label (t : List Label) (sid fn : String) : Except String (Option String) :=
  match get_label_query t sid fn with
  | .ok lbl => .ok lbl
  | .error "QueryReturnedNoRows" => .ok none
  | .error e => .error e

/-- `Database::get_all_labels` from `database.rs`:
`SELECT ... FROM labels WHERE session_id = ?1`, in table order. -/
def get_all_labels (t : List Label) (sid : String) : List Label :=
  t.filter (fun r => r.session_id == sid)

/-! ## Thumbnail / preview generators (`image_processor.rs` lines 261-311)

What matters for the claims is the order of effects on the output path:

* `generate_thumbnail`: decode (`image::open` or `load_raw_image`), resize,
  then `thumbnail.save_with_format(output_path, Jpeg)` — `save` opens/creates
  the output file and encodes into it, so an encode failure after creation
  leaves a truncated file at the stable path.
* `generate_preview`: RAW-extension guard, `load_raw_image`, resize, then
  `File::create(output_path)` followed by JPEG encoding into the handle.

The decode, file-creation and encode outcomes are made explicit parameters;
the state of the output path is `OutFile`. -/

/-- State of the output path: no file, a truncated/corrupt file (created but
not fully encoded), or a completely encoded file. -/
inductive OutFile where
  | absent
  | truncated
  | complete
deriving DecidableEq, Repr

/-- Outcomes of the three effectful steps a generator performs. -/
structure GenEnv where
  decode : Except String Unit
  create : Except String Unit
  encode : Except String Unit
deriving Repr

/-- `generate_thumbnail` from `image_processor.rs`: decode the source
(standard or RAW according to the lowercased extension — either decoder's
failure is `decode`), then `save_with_format`, which creates the output file
and encodes into it.  Returns the Rust result together with the resulting
state of the output path. -/
def generate_thumbnail (env : GenEnv) (out0 : OutFile) : Except String Unit × OutFile :=
  match env.decode with
  | .error e => (.error e, out0)
  | .ok _ =>
    match env.create with
    | .error e => (.error e, out0)
    | .ok _ =>
      match env.encode with
      | .error e => (.error e, .truncated)
      | .ok _ => (.ok (), .complete)

/-- `generate_preview` from `image_processor.rs`: non-RAW extensions are
rejected up front; otherwise `load_raw_image`, then `File::create` on the
stable output path, then JPEG encoding into the created file. -/
def generate_preview (ext_is_raw : Bool) (env : GenEnv) (out0 : OutFile) :
    Except String Unit × OutFile :=
  if !ext_is_raw then
    (.error "Invalid path: Preview generation only needed for RAW files", out0)
  else
    match env.decode with
    | .error e => (.error e, out0)
    | .ok _ =>
      match env.create with
      | .error e => (.error e, out0)
      | .ok _ =>
        match env.encode with
        | .error e => (.error e, .truncated)
        | .ok _ => (.ok (), .complete)

/-! ## Parallel scheduler (`generate_thumbnails_parallel`,
`image_processor.rs` lines 342-454)

Each file is processed by one rayon task; the per-file filesystem and
decode/encode nondeterminism is summarised by a `FileEnv`: whether the
thumbnail / preview cache files already exist, and the outcome of
`generate_thumbnail` / `generate_preview` if they are invoked.  Each task
sends exactly one unit message; a dedicated consumer thread increments a
counter per received message and invokes the progress callback with
`(completed, total)`. -/

/-- `ThumbnailResult` from `image_processor.rs`. -/
structure ThumbnailResult where
  filename : String
  thumbnail_path : String
  preview_path : Option String
  success : Bool
  error : Option String
deriving DecidableEq, Repr

/-- Per-file filesystem / generation outcomes observed by one worker. -/
structure FileEnv where
  thumbExists : Bool
  previewExists : Bool
  genThumb : Except String Unit
  genPreview : Except String Unit
deriving Repr

/-- A worker's result together with which generators it actually invoked
(`generate_thumbnail` / `generate_preview` are the only decode-and-write
steps). -/
structure WorkerOutcome where
  result : ThumbnailResult
  calledGenerateThumbnail : Bool
  calledGeneratePreview : Bool
deriving Repr

/-- The worker closure of `generate_thumbnails_parallel` for one image
(lines 381-448): thumbnail path from the file stem, lowercased extension,
RAW check, existence-guarded thumbnail generation, existence-guarded preview
generation for RAW files (a preview failure is only logged), and the final
`ThumbnailResult`.  The Rust `file_stem().unwrap()` can only panic for
names without a stem, which `scan_folder` never emits; the model defaults
to `""` there. -/
def processImage (cache_dir preview_dir : String) (image : ImageInfo) (env : FileEnv) :
    WorkerOutcome :=
  let file_stem := (rustFileStem image.filename).getD ""
  let thumbnail_path := cache_dir ++ "/" ++ (file_stem ++ ".jpg")
  let extension := ((rustExtension image.filename).map rustToLowercase).getD ""
  let is_raw := is_raw_extension extension
  let preview_path_buf := preview_dir ++ "/" ++ (file_stem ++ "_preview.jpg")
  let thumbnail_result : Except String Unit :=
    if env.thumbExists then .ok () else env.genThumb
  let previewPair : Option String × Bool :=
    if is_raw then
      if env.previewExists then (some (normalize_path preview_path_buf), false)
      else
        match env.genPreview with
        | .ok _ => (some (normalize_path preview_path_buf), true)
        | .error _ => (none, true)
    else (none, false)
  let result :=
    match thumbnail_result with
    | .ok _ =>
      { filename := image.filename, thumbnail_path := normalize_path thumbnail_path,
        preview_path := previewPair.1, success := true, error := none }
    | .error e =>
      { filename := image.filename, thumbnail_path := "",
        preview_path := none, success := false, error := some (toString e) }
  { result := result,
    calledGenerateThumbnail := !env.thumbExists,
    calledGeneratePreview := previewPair.2 }

/-- `generate_thumbnails_parallel` from `image_processor.rs`: the collected
per-file results, one per input image, in input order (rayon's
`par_iter().map(...).collect()` preserves index order). -/
def generate_thumbnails_parallel (batch : List (ImageInfo × FileEnv))
    (cache_dir preview_dir : String) : List ThumbnailResult :=
  batch.map (fun p => (processImage cache_dir preview_dir p.1 p.2).result)

/-- The progress-reporting consumer loop (lines 358-364): one callback
invocation `(completed + 1, total)` per received message. -/
def progressLoop (total completed : Nat) : List Unit → List (Nat × Nat)
  | [] => []
  | _ :: rest => (completed + 1, total) :: progressLoop total (completed + 1) rest

/-- The full sequence of `(completed, total)` progress callbacks emitted for
a batch: each worker sends exactly one message (line 446), `total` is the
batch length (line 354). -/
def progressEvents (batch : List (ImageInfo × FileEnv)) : List (Nat × Nat) :=
  progressLoop batch.length 0 (batch.map (fun _ => ()))

/-- Whether a batch element fails thumbnail generation: the cache file is
absent and `generate_thumbnail` errors. -/
def thumbFails (p : ImageInfo × FileEnv) : Bool :=
  !p.2.thumbExists && (match p.2.genThumb with | .ok _ => false | .error _ => true)

/-! ## Export (`export_adopted`, `commands.rs` lines 156-215)

`export_adopted` fetches the session's labels (`db.get_labels`, embodied by
`Database::get_all_labels`: all label rows of the session), keeps the
filenames labelled `"rejected"` as a `HashSet`, scans the source folder,
and copies every non-rejected file to the destination, counting successes
and failures; `skipped` is the size of the rejected set and `total` the
number of scanned files.  Per-file `fs::copy` outcomes are the explicit
`copyOk` parameter; the destination directory's contents are tracked as a
list of filenames. -/

/-- Collect a list into a set keeping first occurrences, modelling
`collect::<HashSet<String>>()` by its observable behaviour: membership and
cardinality (the number of distinct elements). -/
def hashSetOfList (l : List String) : List String :=
  l.foldl (fun s x => if s.contains x then s else s ++ [x]) []

/-- `ExportResult` from `commands.rs`. -/
structure ExportResult where
  total : Nat
  copied : Nat
  skipped : Nat
  failed : Nat
deriving DecidableEq, Repr

/-- State threaded through the export loop: the `copied` and `failed`
counters and the destination folder's contents. -/
structure ExportLoopState where
  copied : Nat
  failed : Nat
  dest : List String
deriving DecidableEq, Repr

/-- One iteration of the export loop: skip rejected filenames; otherwise
copy (overwriting an existing destination entry) and count the outcome. -/
def exportStep (rejected : List String) (copyOk : String → Bool)
    (st : ExportLoopState) (image : ImageInfo) : ExportLoopState :=
  if rejected.contains image.filename then st
  else if copyOk image.filename then
    { st with copied := st.copied + 1,
              dest := if st.dest.contains image.filename then st.dest
                      else st.dest ++ [image.filename] }
  else { st with failed := st.failed + 1 }

/-- `export_adopted` from `commands.rs` (copy mode): the rejected set, the
scan, the copy loop, and the result counters.  Returns the `ExportResult`
and the destination folder's final contents.  The move-mode
`remove_file` on the source is not modelled (the claims only concern copy
mode). -/
def export_adopted (labels : List Label) (session_id : String) (source_folder : String)
    (entries : List EntryModel) (copyOk : String → Bool) (dest0 : List String) :
    Except String (ExportResult × List String) :=
  let rejected :=
    hashSetOfList (((get_all_labels labels session_id).filter
        (fun l => l.label == some "rejected")).map (fun l => l.filename))
  match scan_folder source_folder entries with
  | .error e => .error e
  | .ok images =>
    let final := images.foldl (exportStep rejected copyOk) ⟨0, 0, dest0⟩
    .ok (⟨images.length, final.copied, rejected.length, final.failed⟩, final.dest)

/-! ## Helper lemmas about the label upsert -/

theorem labelKeyP_iff (sid fn : String) (r : Label) :
    labelKeyP sid fn r = true ↔ r.session_id = sid ∧ r.filename = fn := by
  simp [labelKeyP]

theorem labelKeyP_mk (sid fn : String) (lbl : Option String) (now : String) :
    labelKeyP sid fn ⟨sid, fn, lbl, now⟩ = true := by
  simp [labelKeyP]

/-- After `set_label`, the first row found for the composite key is exactly
the upserted row. -/
theorem find?_set_label (t : List Label) (sid fn : String) (lbl : Option String) (now : String) :
    (set_label t sid fn lbl now).find? (labelKeyP sid fn) = some ⟨sid, fn, lbl, now⟩ := by
  unfold set_label
  by_cases h : t.any (labelKeyP sid fn) = true
  · rw [if_pos h]
    rw [List.find?_map]
    have hcomp :
        (labelKeyP sid fn ∘ fun r =>
          if labelKeyP sid fn r then { r with label := lbl, updated_at := now } else r)
          = labelKeyP sid fn := by
      funext r
      by_cases hr : labelKeyP sid fn r = true
      · obtain ⟨h1, h2⟩ := (labelKeyP_iff sid fn r).mp hr
        simp [hr, labelKeyP, h1, h2]
      · simp [hr]
    rw [hcomp]
    rcases hfind : t.find? (labelKeyP sid fn) with _ | r0
    · rw [List.find?_eq_none] at hfind
      rw [List.any_eq_true] at h
      obtain ⟨x, hx, hpx⟩ := h
      exact absurd hpx (hfind x hx)
    · have hp := List.find?_some hfind
      obtain ⟨h1, h2⟩ := (labelKeyP_iff sid fn r0).mp hp
      cases r0
      simp_all [labelKeyP]
  · rw [if_neg h]
    rw [List.find?_append]
    have hnone : t.find? (labelKeyP sid fn) = none := by
      rw [List.find?_eq_none]
      rw [Bool.not_eq_true, List.any_eq_false] at h
      exact h
    rw [hnone]
    simp [labelKeyP_mk]

/-- `get_label` right after a `set_label` for the same key returns exactly
the stored (possibly NULL) label. -/
theorem get_label_set_label (t : List Label) (sid fn : String) (lbl : Option String)
    (now : String) :
    get_label (set_label t sid fn lbl now) sid fn = .ok lbl := by
  simp [get_label, get_label_query, find?_set_label]

/-- The upserted row is a member of the table and survives the
`get_all_labels` session filter. -/
theorem mem_get_all_labels_set_label (t : List Label) (sid fn : String) (lbl : Option String)
    (now : String) :
    (⟨sid, fn, lbl, now⟩ : Label) ∈ get_all_labels (set_label t sid fn lbl now) sid := by
  have hmem : (⟨sid, fn, lbl, now⟩ : Label) ∈ set_label t sid fn lbl now :=
    List.mem_of_find?_eq_some (find?_set_label t sid fn lbl now)
  rw [get_all_labels, List.mem_filter]
  exact ⟨hmem, by simp⟩

/-! ## Claim C1 -/

/-- C1, counterexample: starting from an empty `labels` table, `set_label(s,
f, Some "rejected")` followed by `set_label(s, f, None)` does **not**
hard-delete the row — `get_all_labels(s)` still returns a row for `f`
(label column NULL), so a cleared label is distinguishable from one that was
never set.  This refutes the claim that after clearing, `get_all_labels(s)`
no longer contains any row for `f`. -/
theorem c1_clear_leaves_row :
    get_all_labels
        (set_label (set_label [] "s" "a.jpg" (some "rejected") "t1") "s" "a.jpg" none "t2") "s"
      = [⟨"s", "a.jpg", none, "t2"⟩] ∧
    ((get_all_labels
        (set_label (set_label [] "s" "a.jpg" (some "rejected") "t1") "s" "a.jpg" none "t2") "s").any
      (fun r => r.filename == "a.jpg")) = true := by
  constructor
  · rfl
  · rfl

/-- C1 (amended): for every session id `s` and filename `f`, after
`set_label(s, f, Some "rejected")` the list returned by `get_all_labels(s)`
contains a row `(f, "rejected")`; after a subsequent `set_label(s, f,
None)` the table still contains a row for `f` — with a NULL label column —
so the clear is an upsert to NULL, not a hard delete; the cleared state is
indistinguishable from never-labeled only through `get_label`, which
returns `Ok(None)` in both cases. -/
theorem c1_set_label_roundtrip (t : List Label) (s f n1 n2 : String) :
    (∃ r ∈ get_all_labels (set_label t s f (some "rejected") n1) s,
        r.filename = f ∧ r.label = some "rejected") ∧
    (∃ r ∈ get_all_labels (set_label (set_label t s f (some "rejected") n1) s f none n2) s,
        r.filename = f ∧ r.label = none) ∧
    get_label (set_label (set_label t s f (some "rejected") n1) s f none n2) s f = .ok none := by
  refine ⟨⟨⟨s, f, some "rejected", n1⟩, mem_get_all_labels_set_label t s f _ n1, rfl, rfl⟩,
    ⟨⟨s, f, none, n2⟩, mem_get_all_labels_set_label _ s f none n2, rfl, rfl⟩,
    get_label_set_label _ s f none n2⟩

/-! ## Claim C10 -/

/-- C10: `get_label(s, f)` returns `Ok(None)` (never an error) when no
label row exists for `(s, f)` — the `QueryReturnedNoRows` error is mapped
to `Ok(None)` — and since `set_label(s, f, None)` stores a row whose label
column is NULL, `get_label` also returns `Ok(None)` for such a row: the
never-labeled state and the NULL-label-row state are indistinguishable
through `get_label`. -/
theorem c10_get_label_none (t : List Label) (sid fn : String)
    (habsent : t.find? (labelKeyP sid fn) = none) :
    get_label t sid fn = .ok none ∧
    ∀ now, get_label (set_label t sid fn none now) sid fn = .ok none := by
  constructor
  · simp [get_label, get_label_query, habsent]
  · intro now
    exact get_label_set_label t sid fn none now

/-- Witness for C10 at the empty table. -/
theorem c10_get_label_none_witness :
    get_label [] "s1" "a.jpg" = .ok none ∧
    ∀ now, get_label (set_label [] "s1" "a.jpg" none now) "s1" "a.jpg" = .ok none :=
  c10_get_label_none [] "s1" "a.jpg" rfl

/-! ## Helper lemmas about the session upsert -/

/-- Number of `sessions` rows carrying a given id (the `id` column is the
table's PRIMARY KEY, so a table produced by SQLite has at most one). -/
def countSessions (t : List Session) (sid : String) : Nat :=
  (t.filter (sessionIdP sid)).length

theorem sessionIdP_upd (sid now : String) (tf : Int) (s : Session) :
    sessionIdP sid (sessionUpd now tf s) = sessionIdP sid s := by
  simp [sessionIdP, sessionUpd]

/-- The update branch of the upsert leaves the first row found for the id in
place, with only `last_opened` and `total_files` rewritten. -/
theorem find?_sessionsUpsert_of_found (t : List Session) (sid fp now : String) (tf : Int)
    (s0 : Session) (hfind : t.find? (sessionIdP sid) = some s0) :
    (sessionsUpsert t sid fp now tf).find? (sessionIdP sid) = some (sessionUpd now tf s0) := by
  have hany : t.any (sessionIdP sid) = true := by
    rw [List.any_eq_true]
    exact ⟨s0, List.mem_of_find?_eq_some hfind, List.find?_some hfind⟩
  unfold sessionsUpsert
  rw [if_pos hany, List.find?_map]
  have hcomp :
      (sessionIdP sid ∘ fun s => if sessionIdP sid s then sessionUpd now tf s else s)
        = sessionIdP sid := by
    funext s
    by_cases hs : sessionIdP sid s = true
    · simp [hs, sessionIdP_upd]
    · simp [hs]
  rw [hcomp, hfind]
  have hp := List.find?_some hfind
  simp [hp]

/-- The insert branch of the upsert appends the fresh row. -/
theorem find?_sessionsUpsert_of_absent (t : List Session) (sid fp now : String) (tf : Int)
    (hnone : t.find? (sessionIdP sid) = none) :
    (sessionsUpsert t sid fp now tf).find? (sessionIdP sid)
      = some (sessionNew sid fp now tf) := by
  have hany : t.any (sessionIdP sid) = false := by
    rw [List.any_eq_false]
    intro x hx
    rw [List.find?_eq_none] at hnone
    exact hnone x hx
  unfold sessionsUpsert
  rw [if_neg (by simp [hany]), List.find?_append, hnone]
  simp [sessionIdP, sessionNew]

/-- The upsert never changes the number of rows for the id when a row is
already there, and adds exactly one when none is. -/
theorem countSessions_sessionsUpsert (t : List Session) (sid fp now : String) (tf : Int) :
    countSessions (sessionsUpsert t sid fp now tf) sid
      = if t.any (sessionIdP sid) then countSessions t sid else countSessions t sid + 1 := by
  by_cases hany : t.any (sessionIdP sid) = true
  · rw [if_pos hany]
    unfold sessionsUpsert countSessions
    rw [if_pos hany]
    rw [List.filter_map]
    have hcomp :
        (sessionIdP sid ∘ fun s => if sessionIdP sid s then sessionUpd now tf s else s)
          = sessionIdP sid := by
      funext s
      by_cases hs : sessionIdP sid s = true
      · simp [hs, sessionIdP_upd]
      · simp [hs]
    rw [hcomp, List.length_map]
  · rw [if_neg hany]
    unfold sessionsUpsert countSessions
    rw [if_neg hany, List.filter_append]
    simp [sessionIdP, sessionNew]

/-! ## Claim C8 -/

/-- C8: for every folder path, repeated `get_or_create_session` calls never
produce two session rows for that path: starting from any table satisfying
the PRIMARY KEY invariant (at most one row for the path's deterministically
derived id), after the first call the table holds exactly one row for that
id, and the second call keeps it at exactly one, updating `last_opened` and
`total_files` in place while leaving `last_selected_index`, `created_at`
(and `folder_path`) unchanged. -/
theorem c8_get_or_create_session_upsert (t : List Session) (fp : String) (tf1 tf2 : Int)
    (n1 n2 : String) (hpk : countSessions t (generate_session_id fp) ≤ 1) :
    ∃ s1 s2 : Session,
      (get_or_create_session t fp tf1 n1).2 = .ok s1 ∧
      countSessions (get_or_create_session t fp tf1 n1).1 (generate_session_id fp) = 1 ∧
      (get_or_create_session (get_or_create_session t fp tf1 n1).1 fp tf2 n2).2 = .ok s2 ∧
      countSessions (get_or_create_session (get_or_create_session t fp tf1 n1).1 fp tf2 n2).1
        (generate_session_id fp) = 1 ∧
      s1.last_opened = some n1 ∧ s1.total_files = tf1 ∧
      s2.last_opened = some n2 ∧ s2.total_files = tf2 ∧
      s2.last_selected_index = s1.last_selected_index ∧
      s2.created_at = s1.created_at ∧ s2.folder_path = s1.folder_path := by
  set sid := generate_session_id fp with hsid
  have step :
      ∀ (u : List Session) (tf : Int) (now : String) (s0 : Session),
        u.find? (sessionIdP sid) = some s0 →
        (get_or_create_session u fp tf now).2 = .ok (sessionUpd now tf s0) ∧
        (get_or_create_session u fp tf now).1 = sessionsUpsert u sid fp now tf := by
    intro u tf now s0 hfind
    have h2 := find?_sessionsUpsert_of_found u sid fp now tf s0 hfind
    constructor
    · show (match (sessionsUpsert u sid fp now tf).find? (sessionIdP sid) with
        | some s => Except.ok s
        | none => Except.error "QueryReturnedNoRows") = Except.ok (sessionUpd now tf s0)
      rw [h2]
    · rfl
  rcases hfind0 : t.find? (sessionIdP sid) with _ | s0
  -- no row for the id yet: the first call inserts the fresh row
  · have h1 := find?_sessionsUpsert_of_absent t sid fp n1 tf1 hfind0
    have hany0 : t.any (sessionIdP sid) = false := by
      rw [List.any_eq_false]
      intro x hx
      rw [List.find?_eq_none] at hfind0
      exact hfind0 x hx
    have hcount0 : countSessions t sid = 0 := by
      unfold countSessions
      rw [List.length_eq_zero, List.filter_eq_nil_iff]
      rw [List.any_eq_false] at hany0
      exact hany0
    have hc1 : countSessions (sessionsUpsert t sid fp n1 tf1) sid = 1 := by
      rw [countSessions_sessionsUpsert, if_neg (by simp [hany0]), hcount0]
    have hfst : (get_or_create_session t fp tf1 n1).1 = sessionsUpsert t sid fp n1 tf1 := rfl
    have hres1 : (get_or_create_session t fp tf1 n1).2 = .ok (sessionNew sid fp n1 tf1) := by
      show (match (sessionsUpsert t sid fp n1 tf1).find? (sessionIdP sid) with
        | some s => Except.ok s
        | none => Except.error "QueryReturnedNoRows") = Except.ok (sessionNew sid fp n1 tf1)
      rw [h1]
    obtain ⟨hres2, hfst2⟩ :=
      step (sessionsUpsert t sid fp n1 tf1) tf2 n2 (sessionNew sid fp n1 tf1) h1
    refine ⟨sessionNew sid fp n1 tf1, sessionUpd n2 tf2 (sessionNew sid fp n1 tf1),
      hres1, by rw [hfst]; exact hc1, by rw [hfst]; exact hres2, ?_, ?_⟩
    · rw [hfst, hfst2, countSessions_sessionsUpsert]
      have hany1 : (sessionsUpsert t sid fp n1 tf1).any (sessionIdP sid) = true := by
        rw [List.any_eq_true]
        exact ⟨_, List.mem_of_find?_eq_some h1, List.find?_some h1⟩
      rw [if_pos hany1, hc1]
    · simp [sessionNew, sessionUpd]
  -- a row already exists: both calls take the update branch
  · have hcg1 : countSessions t sid ≥ 1 := by
      have : s0 ∈ t.filter (sessionIdP sid) :=
        List.mem_filter.mpr ⟨List.mem_of_find?_eq_some hfind0, List.find?_some hfind0⟩
      unfold countSessions
      exact List.length_pos.mpr (List.ne_nil_of_mem this)
    have hcount1 : countSessions t sid = 1 := le_antisymm hpk hcg1
    obtain ⟨hres1, hfst1⟩ := step t tf1 n1 s0 hfind0
    have h1 := find?_sessionsUpsert_of_found t sid fp n1 tf1 s0 hfind0
    have hany0 : t.any (sessionIdP sid) = true := by
      rw [List.any_eq_true]
      exact ⟨s0, List.mem_of_find?_eq_some hfind0, List.find?_some hfind0⟩
    have hc1 : countSessions (sessionsUpsert t sid fp n1 tf1) sid = 1 := by
      rw [countSessions_sessionsUpsert, if_pos hany0, hcount1]
    obtain ⟨hres2, hfst2⟩ :=
      step (sessionsUpsert t sid fp n1 tf1) tf2 n2 (sessionUpd n1 tf1 s0) h1
    refine ⟨sessionUpd n1 tf1 s0, sessionUpd n2 tf2 (sessionUpd n1 tf1 s0),
      hres1, by rw [hfst1]; exact hc1, by rw [hfst1]; exact hres2, ?_, ?_⟩
    · rw [hfst1, hfst2, countSessions_sessionsUpsert]
      have hany1 : (sessionsUpsert t sid fp n1 tf1).any (sessionIdP sid) = true := by
        rw [List.any_eq_true]
        exact ⟨_, List.mem_of_find?_eq_some h1, List.find?_some h1⟩
      rw [if_pos hany1, hc1]
    · simp [sessionUpd]

/-- Witness for C8: two opens of `"/photos"` starting from an empty
`sessions` table. -/
theorem c8_get_or_create_session_upsert_witness :
    ∃ s1 s2 : Session,
      (get_or_create_session [] "/photos" 3 "t1").2 = .ok s1 ∧
      countSessions (get_or_create_session [] "/photos" 3 "t1").1
        (generate_session_id "/photos") = 1 ∧
      (get_or_create_session (get_or_create_session [] "/photos" 3 "t1").1 "/photos" 5 "t2").2
        = .ok s2 ∧
      countSessions
        (get_or_create_session (get_or_create_session [] "/photos" 3 "t1").1 "/photos" 5 "t2").1
        (generate_session_id "/photos") = 1 ∧
      s1.last_opened = some "t1" ∧ s1.total_files = 3 ∧
      s2.last_opened = some "t2" ∧ s2.total_files = 5 ∧
      s2.last_selected_index = s1.last_selected_index ∧
      s2.created_at = s1.created_at ∧ s2.folder_path = s1.folder_path :=
  c8_get_or_create_session_upsert [] "/photos" 3 5 "t1" "t2" (by simp [countSessions])

/-! ## Scanner characterization -/

/-- When every kept entry's metadata read succeeds, the scan loop returns
exactly the kept entries' rows, in directory order. -/
theorem scanEntries_ok (folder : String) (entries : List EntryModel)
    (hmeta : ∀ e ∈ entries, keepEntry e = true → ∃ m, e.metadata = .ok m) :
    scanEntries folder entries = .ok ((entries.filter keepEntry).map (mkImageInfo folder)) := by
  induction entries with
  | nil => rfl
  | cons e rest ih =>
    have ihr := ih (fun x hx => hmeta x (List.mem_cons_of_mem e hx))
    by_cases hk : keepEntry e = true
    · obtain ⟨m, hm⟩ := hmeta e (List.mem_cons_self e rest) hk
      simp [scanEntries, hk, hm, ihr]
    · simp [scanEntries, hk, ihr]

/-- `scan_folder` under the same hypothesis: the kept rows, sorted by file
name. -/
theorem scan_folder_ok (folder : String) (entries : List EntryModel)
    (hmeta : ∀ e ∈ entries, keepEntry e = true → ∃ m, e.metadata = .ok m) :
    scan_folder folder entries
      = .ok (sortBy (fun a b => rustStrLe a.filename b.filename)
          ((entries.filter keepEntry).map (mkImageInfo folder))) := by
  unfold scan_folder
  rw [scanEntries_ok folder entries hmeta]

/-! ## Claim C2 -/

/-- C2, counterexample: a failure of `entry.metadata()` on a single kept
file makes the whole scan fail (the `?` operator propagates it), instead of
the file appearing with the `"-"` placeholder.  The `"-"` fallback only
covers an unavailable modification time on successfully read metadata. -/
theorem c2_metadata_error_aborts_scan :
    scan_folder "/d" [⟨"a.jpg", true, .error "Permission denied (os error 13)"⟩]
      = .error "Permission denied (os error 13)" := rfl

/-- C2 (amended): a failure of `metadata.modified()` — metadata readable
but modification time unavailable — on an individual file does not abort
the scan: the file appears in the result with the placeholder `"-"` in
`modified_at`.  (A failure of `entry.metadata()` itself, by contrast,
aborts the whole scan.) -/
theorem c2_modified_time_fallback (folder : String) (entries : List EntryModel)
    (hmeta : ∀ e ∈ entries, keepEntry e = true → ∃ m, e.metadata = .ok m)
    (e : EntryModel) (he : e ∈ entries) (hk : keepEntry e = true)
    (hmod : (metaOf e).modified = none) :
    ∃ images, scan_folder folder entries = .ok images ∧
      ∃ info ∈ images, info.filename = e.name ∧ info.modified_at = "-" := by
  refine ⟨_, scan_folder_ok folder entries hmeta, mkImageInfo folder e, ?_, rfl, ?_⟩
  · rw [mem_sortBy]
    exact List.mem_map_of_mem _ (List.mem_filter.mpr ⟨he, hk⟩)
  · simp [mkImageInfo, hmod]

/-- Witness for C2 (amended): one readable JPEG whose modification time is
unavailable. -/
theorem c2_modified_time_fallback_witness :
    ∃ images,
      scan_folder "/d" [⟨"a.jpg", true, .ok ⟨none, 100⟩⟩] = .ok images ∧
      ∃ info ∈ images, info.filename = "a.jpg" ∧ info.modified_at = "-" :=
  c2_modified_time_fallback "/d" [⟨"a.jpg", true, .ok ⟨none, 100⟩⟩]
    (by
      intro e he _
      rw [List.mem_singleton] at he
      subst he
      exact ⟨⟨none, 100⟩, rfl⟩)
    ⟨"a.jpg", true, .ok ⟨none, 100⟩⟩ (List.mem_singleton.mpr rfl) (by decide) rfl

/-! ## Claim C4 -/

/-- C4, counterexample: the extension comparison is **not**
case-insensitive.  `"x.Jpg"` — whose extension lowercases to the supported
`"jpg"` — is rejected by the scan, because the code compares the extension
verbatim against the explicitly listed all-lowercase / all-uppercase
variants. -/
theorem c4_mixed_case_extension_rejected :
    scan_folder "/d" [⟨"x.Jpg", true, .ok ⟨some "2024/01/01 00:00", 10⟩⟩] = .ok [] ∧
    IMAGE_EXTENSIONS.contains (rustToLowercase "Jpg") = true := by
  exact ⟨rfl, rfl⟩

/-- C4 (amended): `scan_folder` keeps a file iff it is a regular file whose
extension matches **exactly** (case-sensitively) one of the listed
variants of the standard-raster or RAW extension tables; each table lists
the all-lowercase and all-uppercase spellings only, so mixed-case variants
such as `"Jpg"` or `"nEf"` are rejected. -/
theorem c4_scan_keeps_exact_extensions (folder : String) (entries : List EntryModel)
    (hmeta : ∀ e ∈ entries, keepEntry e = true → ∃ m, e.metadata = .ok m)
    (images : List ImageInfo) (hok : scan_folder folder entries = .ok images) (name : String) :
    (∃ info ∈ images, info.filename = name) ↔
      ∃ e ∈ entries, e.name = name ∧ e.is_file = true ∧
        (RAW_EXTENSIONS.contains (entryExt e) || IMAGE_EXTENSIONS.contains (entryExt e))
          = true := by
  rw [scan_folder_ok folder entries hmeta] at hok
  have himages :
      images = sortBy (fun a b => rustStrLe a.filename b.filename)
            ((entries.filter keepEntry).map (mkImageInfo folder)) := by
    injection hok with h
    exact h.symm
  subst himages
  constructor
  · rintro ⟨info, hmem, hname⟩
    rw [mem_sortBy] at hmem
    obtain ⟨e, he, hinfo⟩ := List.mem_map.mp hmem
    obtain ⟨hin, hkeep⟩ := List.mem_filter.mp he
    rw [keepEntry, Bool.and_eq_true] at hkeep
    refine ⟨e, hin, ?_, hkeep.1, hkeep.2⟩
    rw [← hname, ← hinfo]
    rfl
  · rintro ⟨e, he, hname, hfile, hext⟩
    refine ⟨mkImageInfo folder e, ?_, hname⟩
    rw [mem_sortBy]
    exact List.mem_map_of_mem _
      (List.mem_filter.mpr ⟨he, by rw [keepEntry, Bool.and_eq_true]; exact ⟨hfile, hext⟩⟩)

/-- Witness for C4 (amended): a folder with one supported file and one
text file; `"x.jpg"` is kept. -/
theorem c4_scan_keeps_exact_extensions_witness :
    (∃ info ∈ [mkImageInfo "/d" ⟨"x.jpg", true, .ok ⟨some "m", 10⟩⟩], info.filename = "x.jpg") ↔
      ∃ e ∈ [(⟨"x.jpg", true, .ok ⟨some "m", 10⟩⟩ : EntryModel),
             ⟨"doc.txt", true, .ok ⟨some "m", 20⟩⟩],
        e.name = "x.jpg" ∧ e.is_file = true ∧
        (RAW_EXTENSIONS.contains (entryExt e) || IMAGE_EXTENSIONS.contains (entryExt e))
          = true :=
  c4_scan_keeps_exact_extensions "/d"
    [⟨"x.jpg", true, .ok ⟨some "m", 10⟩⟩, ⟨"doc.txt", true, .ok ⟨some "m", 20⟩⟩]
    (by
      intro e he _
      rw [List.mem_cons, List.mem_singleton] at he
      rcases he with he | he <;> subst he
      · exact ⟨⟨some "m", 10⟩, rfl⟩
      · exact ⟨⟨some "m", 20⟩, rfl⟩)
    [mkImageInfo "/d" ⟨"x.jpg", true, .ok ⟨some "m", 10⟩⟩] rfl "x.jpg"

/-! ## Claim C3 -/

/-- Whether an effect outcome is a success. -/
def exceptOk (r : Except String Unit) : Bool :=
  match r with
  | .ok _ => true
  | .error _ => false

/-- C3, counterexample: `generate_preview` (RAW source, successful decode,
output file created, then a failing JPEG encode) returns an error **and**
leaves a truncated/corrupt file at the stable output path — the file is
created *before* the encode (`File::create` then encode into the handle),
so a later existence-based cache-hit check can observe a truncated JPEG.
This refutes the claim that after an error no partial or corrupt file
exists at the output path. -/
theorem c3_encode_failure_leaves_truncated_file :
    generate_preview true ⟨.ok (), .ok (), .error "No space left on device"⟩ .absent
      = (.error "No space left on device", .truncated) := rfl

/-- C3 (amended): for both generators the output path is characterized as
follows — an error in the decode step (or in creating the output file)
leaves the output path exactly as it was, in particular absent if it was
absent; but the output file is created at its stable name *before* the
encode completes, so an encode failure leaves a truncated file there; the
path holds a complete JPEG exactly when every step succeeded.  The
non-RAW guard of `generate_preview` also leaves the path untouched. -/
theorem c3_output_file_state (env : GenEnv) (out0 : OutFile) :
    (generate_thumbnail env out0).2
      = (if exceptOk env.decode && exceptOk env.create then
          (if exceptOk env.encode then .complete else .truncated)
         else out0) ∧
    (generate_preview true env out0).2
      = (if exceptOk env.decode && exceptOk env.create then
          (if exceptOk env.encode then .complete else .truncated)
         else out0) ∧
    (generate_preview false env out0).2 = out0 := by
  rcases env with ⟨d, c, e⟩
  rcases d with d | d <;> rcases c with c | c <;> rcases e with e | e <;>
    simp [generate_thumbnail, generate_preview, exceptOk]

/-! ## Claim C7 -/

/-- C7, counterexample: a RAW image (`x.nef`) whose *thumbnail* file
already exists at the destination but whose preview file does not: the
second generation pass still invokes `generate_preview` — a RAW decode and
a write — even though the thumbnail existence check succeeds.  The pass is
guarded by two independent existence checks (thumbnail and preview), not
only by the thumbnail's, so the claim's premise does not suffice for "no
decode and no write". -/
theorem c7_raw_preview_regenerated_despite_thumbnail :
    (processImage "c" "p" ⟨"x.nef", "d/x.nef", 10, "t"⟩
        ⟨true, false, .ok (), .ok ()⟩).calledGeneratePreview = true ∧
    (processImage "c" "p" ⟨"x.nef", "d/x.nef", 10, "t"⟩
        ⟨true, false, .ok (), .ok ()⟩).calledGenerateThumbnail = false := ⟨rfl, rfl⟩

/-- C7 (amended): if the thumbnail file already exists at the destination
path **and** — for a RAW source — the preview file also exists, then the
generation pass for that file invokes neither `generate_thumbnail` nor
`generate_preview` (no decode, no write) and reports success with no error;
for non-RAW sources the thumbnail's existence alone suffices.  The guard is
an existence-only check. -/
theorem c7_generation_idempotent (cd pd : String) (img : ImageInfo) (env : FileEnv)
    (hthumb : env.thumbExists = true)
    (hprev : is_raw_extension (((rustExtension img.filename).map rustToLowercase).getD "")
        = true → env.previewExists = true) :
    (processImage cd pd img env).calledGenerateThumbnail = false ∧
    (processImage cd pd img env).calledGeneratePreview = false ∧
    (processImage cd pd img env).result.success = true ∧
    (processImage cd pd img env).result.error = none := by
  by_cases hraw :
      is_raw_extension (((rustExtension img.filename).map rustToLowercase).getD "") = true
  · have hp := hprev hraw
    simp [processImage, hthumb, hraw, hp]
  · simp [processImage, hthumb, hraw]

/-- Witness for C7 (amended): a plain JPEG whose thumbnail is already
cached. -/
theorem c7_generation_idempotent_witness :
    (processImage "c" "p" ⟨"a.jpg", "d/a.jpg", 10, "t"⟩
        ⟨true, false, .ok (), .ok ()⟩).calledGenerateThumbnail = false ∧
    (processImage "c" "p" ⟨"a.jpg", "d/a.jpg", 10, "t"⟩
        ⟨true, false, .ok (), .ok ()⟩).calledGeneratePreview = false ∧
    (processImage "c" "p" ⟨"a.jpg", "d/a.jpg", 10, "t"⟩
        ⟨true, false, .ok (), .ok ()⟩).result.success = true ∧
    (processImage "c" "p" ⟨"a.jpg", "d/a.jpg", 10, "t"⟩
        ⟨true, false, .ok (), .ok ()⟩).result.error = none :=
  c7_generation_idempotent "c" "p" ⟨"a.jpg", "d/a.jpg", 10, "t"⟩
    ⟨true, false, .ok (), .ok ()⟩ rfl (fun h => absurd h (by decide))

/-! ## Claim C5 -/

theorem processImage_filename (cd pd : String) (img : ImageInfo) (env : FileEnv) :
    (processImage cd pd img env).result.filename = img.filename := by
  by_cases ht : env.thumbExists = true <;>
    rcases hg : env.genThumb with e | v <;>
    simp [processImage, ht, hg]

theorem processImage_success_iff (cd pd : String) (img : ImageInfo) (env : FileEnv) :
    ((processImage cd pd img env).result.success == false)
      = thumbFails (img, env) := by
  by_cases ht : env.thumbExists = true <;>
    rcases hg : env.genThumb with e | v <;>
    simp [processImage, thumbFails, ht, hg]

theorem processImage_error_of_failure (cd pd : String) (img : ImageInfo) (env : FileEnv)
    (hfail : (processImage cd pd img env).result.success = false) :
    (processImage cd pd img env).result.error.isSome = true := by
  by_cases ht : env.thumbExists = true <;>
    rcases hg : env.genThumb with e | v <;>
    simp_all [processImage, ht, hg]

theorem mem_zip_map_self {α β : Type _} (f : α → β) :
    ∀ (l : List α) (pr : β × α), pr ∈ (l.map f).zip l → pr.1 = f pr.2 := by
  intro l
  induction l with
  | nil => intro pr h; simp at h
  | cons b t ih =>
    intro pr h
    rw [List.map_cons, List.zip_cons_cons, List.mem_cons] at h
    rcases h with h | h
    · rw [h]
    · exact ih pr h

/-- C5: for every batch, every per-file filesystem/decode environment and
every cache/preview directory, `generate_thumbnails_parallel` returns
exactly one result per input file (the batch is never aborted or shrunk by
failures); the number of results with `success = false` equals exactly the
number K of inputs whose thumbnail generation fails (cache miss together
with a decode/encode/IO error from `generate_thumbnail`); each result
carries its input's filename; and every failed result carries an error
message. -/
theorem c5_batch_completeness (batch : List (ImageInfo × FileEnv)) (cd pd : String) :
    (generate_thumbnails_parallel batch cd pd).length = batch.length ∧
    ((generate_thumbnails_parallel batch cd pd).filter
        (fun r => r.success == false)).length = (batch.filter thumbFails).length ∧
    (∀ pr ∈ (generate_thumbnails_parallel batch cd pd).zip batch,
        pr.1.filename = pr.2.1.filename) ∧
    (∀ r ∈ generate_thumbnails_parallel batch cd pd,
        r.success = false → r.error.isSome = true) := by
  refine ⟨List.length_map _ _, ?_, ?_, ?_⟩
  · unfold generate_thumbnails_parallel
    rw [List.filter_map, List.length_map]
    congr 1
    apply List.filter_congr
    intro p _
    rcases p with ⟨img, env⟩
    exact processImage_success_iff cd pd img env
  · intro pr hpr
    have hpr2 : pr ∈ (batch.map (fun p => (processImage cd pd p.1 p.2).result)).zip batch := hpr
    have h := mem_zip_map_self (fun p => (processImage cd pd p.1 p.2).result) batch pr hpr2
    rw [h]
    exact processImage_filename cd pd pr.2.1 pr.2.2
  · intro r hr hfail
    obtain ⟨p, _, hp⟩ := List.mem_map.mp hr
    rw [← hp] at hfail ⊢
    exact processImage_error_of_failure cd pd p.1 p.2 hfail

/-- Witness for C5: a two-file batch whose second file fails decoding. -/
theorem c5_batch_completeness_witness :
    (generate_thumbnails_parallel
        [(⟨"a.jpg", "d/a.jpg", 1, "t"⟩, ⟨false, false, .ok (), .ok ()⟩),
         (⟨"b.nef", "d/b.nef", 2, "t"⟩, ⟨false, false, .error "corrupt RAW", .ok ()⟩)]
        "c" "p").length = 2 ∧
    ((generate_thumbnails_parallel
        [(⟨"a.jpg", "d/a.jpg", 1, "t"⟩, ⟨false, false, .ok (), .ok ()⟩),
         (⟨"b.nef", "d/b.nef", 2, "t"⟩, ⟨false, false, .error "corrupt RAW", .ok ()⟩)]
        "c" "p").filter (fun r => r.success == false)).length = 1 := by
  have h := c5_batch_completeness
    [(⟨"a.jpg", "d/a.jpg", 1, "t"⟩, ⟨false, false, .ok (), .ok ()⟩),
     (⟨"b.nef", "d/b.nef", 2, "t"⟩, ⟨false, false, .error "corrupt RAW", .ok ()⟩)] "c" "p"
  refine ⟨h.1, ?_⟩
  rw [h.2.1]
  rfl

/-! ## Claim C6 -/

/-- The consumer loop emits, for `n` received messages starting from count
`c`, the ticks `(c+1, total), ..., (c+n, total)`. -/
theorem progressLoop_eq_range (total : Nat) :
    ∀ (msgs : List Unit) (c : Nat),
      progressLoop total c msgs = (List.range msgs.length).map (fun i => (c + i + 1, total)) := by
  intro msgs
  induction msgs with
  | nil => intro c; rfl
  | cons u rest ih =>
    intro c
    rw [progressLoop, ih (c + 1), List.length_cons, List.range_succ_eq_map]
    rw [List.map_cons, List.map_map]
    congr 1
    apply List.map_congr_left
    intro i _
    simp [Function.comp]
    omega

/-- The progress event stream of a batch of `n` files is
`(1, n), (2, n), ..., (n, n)`. -/
theorem progressEvents_eq (batch : List (ImageInfo × FileEnv)) :
    progressEvents batch
      = (List.range batch.length).map (fun i => (i + 1, batch.length)) := by
  unfold progressEvents
  rw [progressLoop_eq_range, List.length_map]
  congr 1
  funext i
  simp

/-- C6, counterexample: for the empty batch (N = 0) the scheduler sends no
progress message at all, so the progress stream is empty and never reaches
`completed == total == 0` — refuting, at N = 0, the claim that the stream
reaches `completed == total == N` exactly once for every batch of N
files. -/
theorem c6_empty_batch_never_reaches_total :
    progressEvents ([] : List (ImageInfo × FileEnv)) = [] ∧
    ¬ ((0, 0) ∈ progressEvents ([] : List (ImageInfo × FileEnv))) := by
  exact ⟨rfl, by simp [progressEvents, progressLoop]⟩

/-- C6 (amended): for every **nonempty** batch of N files the progress
callback sequence is exactly one callback per completed file (length N),
every tick carries `total = N`, the completed counts are strictly
increasing (in particular monotonically increasing), and the stream reaches
`completed = N` exactly once.  (For the empty batch no callback is emitted
at all, so `completed == total` is never reached.) -/
theorem c6_progress_stream (batch : List (ImageInfo × FileEnv)) (hne : batch ≠ []) :
    (progressEvents batch).length = batch.length ∧
    (∀ p ∈ progressEvents batch, p.2 = batch.length) ∧
    List.Pairwise (fun p q : Nat × Nat => p.1 < q.1) (progressEvents batch) ∧
    ((progressEvents batch).filter (fun p => p.1 == batch.length)).length = 1 := by
  rw [progressEvents_eq]
  refine ⟨by simp, ?_, ?_, ?_⟩
  · intro p hp
    obtain ⟨i, _, hi⟩ := List.mem_map.mp hp
    rw [← hi]
  · rw [List.pairwise_map]
    have := List.pairwise_lt_range batch.length
    exact this.imp (by omega)
  · rcases hb : batch.length with _ | m
    · exact absurd (List.length_eq_zero.mp hb) hne
    · rw [List.filter_map]
      have hfilter :
          (List.range (m + 1)).filter ((fun p : Nat × Nat => p.1 == m + 1) ∘
              (fun i => (i + 1, m + 1))) = [m] := by
        rw [List.range_succ, List.filter_append]
        have h1 : (List.range m).filter ((fun p : Nat × Nat => p.1 == m + 1) ∘
            (fun i => (i + 1, m + 1))) = [] := by
          rw [List.filter_eq_nil_iff]
          intro i hi
          have := List.mem_range.mp hi
          simp
          omega
        rw [h1]
        simp
      rw [hfilter]
      rfl

/-- Witness for C6 (amended): a single-file batch. -/
theorem c6_progress_stream_witness :
    (progressEvents [(⟨"a.jpg", "d/a.jpg", 1, "t"⟩, ⟨false, false, .ok (), .ok ()⟩)]).length
        = 1 ∧
    (∀ p ∈ progressEvents [(⟨"a.jpg", "d/a.jpg", 1, "t"⟩, ⟨false, false, .ok (), .ok ()⟩)],
        p.2 = 1) ∧
    List.Pairwise (fun p q : Nat × Nat => p.1 < q.1)
      (progressEvents [(⟨"a.jpg", "d/a.jpg", 1, "t"⟩, ⟨false, false, .ok (), .ok ()⟩)]) ∧
    ((progressEvents [(⟨"a.jpg", "d/a.jpg", 1, "t"⟩, ⟨false, false, .ok (), .ok ()⟩)]).filter
        (fun p => p.1 == 1)).length = 1 := by
  have h := c6_progress_stream
    [(⟨"a.jpg", "d/a.jpg", 1, "t"⟩, ⟨false, false, .ok (), .ok ()⟩)]
    (List.cons_ne_nil _ _)
  simpa using h

/-! ## Claim C9 -/

/-- C9: for a source folder holding exactly `a.jpg`, `b.jpg`, `c.jpg`
(regular readable files) where only `b.jpg` carries the label `"rejected"`
in the active session, export in copy mode (all copies succeeding, empty
destination) returns `total = 3`, `copied = 2`, `skipped = 1`, `failed =
0`, and afterwards exactly `a.jpg` and `c.jpg` exist in the destination
folder. -/
theorem c9_export_copy_concrete :
    export_adopted
        (set_label [] "s1" "b.jpg" (some "rejected") "t1") "s1" "/src"
        [⟨"a.jpg", true, .ok ⟨some "m1", 1⟩⟩,
         ⟨"b.jpg", true, .ok ⟨some "m2", 2⟩⟩,
         ⟨"c.jpg", true, .ok ⟨some "m3", 3⟩⟩]
        (fun _ => true) []
      = .ok (⟨3, 2, 1, 0⟩, ["a.jpg", "c.jpg"]) := by rfl

end Glimpse
